import Mathlib

/-!
Verification of the parsing execution engine (lib.rs) and its error
recovery strategies (recovery.rs): the located-error merge rule, the
parse and parse_recovery drivers, and the SkipThenRetryUntil and
NestedDelimiters recovery strategies, embedded shallowly with machine
positions as naturals and balances as integers.
-/

set_option linter.unusedVariables false

/-- Position-tagged diagnostic, mirroring struct Located of lib.rs: a raw
error value paired with the input position at which it occurred. The Rust
field name is at, a reserved word here, written at_. -/
structure Located (E : Type) where
  at_ : Nat
  error : E
deriving DecidableEq, Repr

/-- Merge rule Located::max of lib.rs: keep the error that got further into
the input; when the positions tie, merge the two underlying errors and keep
the first argument's position. The error-merging operation of the Error
trait is passed as the function argument, and the None case of the Rust
Into-Option argument returns the first argument unchanged. -/
def Located.max {E : Type} (merge : E → E → E) (a : Located E)
    (other : Option (Located E)) : Located E :=
  match other with
  | none => a
  | some b =>
    match compare a.at_ b.at_ with
    | Ordering.gt => a
    | Ordering.lt => b
    | Ordering.eq => { a with error := merge a.error b.error }

/-- Modelled from the spec: the stream cursor (module stream is declared in
lib.rs but src/stream.rs is not in the sources). A cursor over positioned
tokens: the index of the next token, the remaining tokens paired with their
spans, and the span reported at end of input. -/
structure TokenStream (I S : Type) where
  at_ : Nat
  tokens : List (I × S)
  eofSpan : S
deriving DecidableEq, Repr

/-- Modelled from the spec: Stream::next consumes and returns the current
token together with its position and span; at end of input it returns no
token and leaves the cursor unchanged. -/
def TokenStream.next {I S : Type} (s : TokenStream I S) :
    (Nat × S × Option I) × TokenStream I S :=
  match s.tokens with
  | [] => ((s.at_, s.eofSpan, none), s)
  | (t, span) :: rest => ((s.at_, span, some t), ⟨s.at_ + 1, rest, s.eofSpan⟩)

/-- Outcome type PResult of lib.rs: the accumulated recovered diagnostics
plus either success (output and optional alternative diagnostic) or a
fatal diagnostic. -/
def PResult (O E : Type) : Type :=
  List (Located E) × Except (Located E) (O × Option (Located E))

/-- Parser contract of lib.rs: the single primitive parse_inner consumes
from the stream and produces an outcome. A parser is modelled as that
primitive directly, with the mutable stream passed and returned
explicitly. -/
structure Parser (I S O E : Type) where
  parse_inner : TokenStream I S → PResult O E × TokenStream I S

/-- Driver Parser::parse_recovery of lib.rs: run parse_inner; on success
report the output together with the recovered diagnostics; on fatal
failure push the fatal diagnostic onto the recovered list and report no
output. The Located wrappers are stripped at the end, as in the source. -/
def Parser.parse_recovery {I S O E : Type} (p : Parser I S O E)
    (stream : TokenStream I S) : Option O × List E :=
  let r := p.parse_inner stream
  match r.1.2 with
  | Except.ok (out, _) => (some out, r.1.1.map Located.error)
  | Except.error err => (none, (r.1.1 ++ [err]).map Located.error)

/-- Driver Parser::parse of lib.rs: call parse_recovery; with no
diagnostics return the output, otherwise return the diagnostics and
discard any partial output. The expect call that fires on a missing output
with an empty diagnostic list is modelled as the none outcome. -/
def Parser.parse {I S O E : Type} (p : Parser I S O E)
    (stream : TokenStream I S) : Option (Except (List E) O) :=
  let r := p.parse_recovery stream
  if r.2.isEmpty then
    match r.1 with
    | some out => some (Except.ok out)
    | none => none
  else some (Except.error r.2)

/-- Concrete parser over natural-number tokens, spans and errors, used by
witnesses: it succeeds immediately with output 0, no recovered diagnostics
and no alternative, leaving the stream untouched. -/
def pOkNoErr : Parser Nat Nat Nat Nat :=
  ⟨fun s => (([], Except.ok (0, none)), s)⟩

/-- Concrete parser used by witnesses: it fails fatally at position 3 with
error value 7, no recovered diagnostics, leaving the stream untouched. -/
def pFailNoErr : Parser Nat Nat Nat Nat :=
  ⟨fun s => (([], Except.error (Located.mk 3 7)), s)⟩

/-- Recovery strategy SkipThenRetryUntil of recovery.rs: the array of
sentinel tokens at which the strategy gives up. -/
structure SkipThenRetryUntil (I : Type) where
  sentinels : List I

/-- Loop body of SkipThenRetryUntil::recover from recovery.rs, indexed by
fuel: each iteration runs the attempt probe (peek one token; commit and
continue when it is neither a sentinel nor end of input, roll back and
give up otherwise), then re-runs the failed parser; a successful retry
returns its outcome with the original fatal diagnostic appended to the
retry's own recovered list. Fuel exhaustion yields none; the loop itself
never returns none given enough fuel. -/
def SkipThenRetryUntil.recoverAux {I S O E : Type} [DecidableEq I]
    (sentinels : List I) (p : Parser I S O E)
    (a_errors : List (Located E)) (a_err : Located E) :
    Nat → TokenStream I S → Option (PResult O E × TokenStream I S)
  | 0, _ => none
  | fuel + 1, stream =>
    let step := stream.next
    match step.1.2.2 with
    | none => some ((a_errors, Except.error a_err), stream)
    | some t =>
      if sentinels.contains t then some ((a_errors, Except.error a_err), stream)
      else
        let r := p.parse_inner step.2
        match r.1.2 with
        | Except.ok out => some ((r.1.1 ++ [a_err], Except.ok out), r.2)
        | Except.error _ =>
          SkipThenRetryUntil.recoverAux sentinels p a_errors a_err fuel r.2

/-- Strategy::recover for SkipThenRetryUntil from recovery.rs, run with
enough fuel for the finite stream: one unit per remaining token plus one
for the final give-up check. -/
def SkipThenRetryUntil.recover {I S O E : Type} [DecidableEq I]
    (st : SkipThenRetryUntil I) (p : Parser I S O E)
    (a_errors : List (Located E)) (a_err : Located E)
    (stream : TokenStream I S) : Option (PResult O E × TokenStream I S) :=
  SkipThenRetryUntil.recoverAux st.sentinels p a_errors a_err
    (stream.tokens.length + 1) stream

/-- Concrete parser used by the C4 and C5 instances: it consumes every
remaining token and then fails fatally at position 3 with error value 7,
reporting no recovered diagnostics. -/
def pConsumeAllFail : Parser Nat Nat Nat Nat :=
  ⟨fun s => (([], Except.error (Located.mk 3 7)),
    ⟨s.at_ + s.tokens.length, [], s.eofSpan⟩)⟩

/-- Concrete parser used by the C4 instances to exercise repeated skips:
it succeeds with the current position as output once the cursor has
reached position 2 and otherwise fails fatally at the current position
with error value 7, never consuming and never recovering. -/
def pSucceedLate : Parser Nat Nat Nat Nat :=
  ⟨fun s =>
    if 2 ≤ s.at_ then (([], Except.ok (s.at_, none)), s)
    else (([], Except.error (Located.mk s.at_ 7)), s)⟩

/-- Operations required of the external error collaborator (the Error
trait, declared in lib.rs with its implementation outside the sources):
the two diagnostic constructors invoked by NestedDelimiters::recover. -/
structure ErrorOps (I S E : Type) where
  unclosed_delimiter : S → I → S → I → Option I → E
  expected_input_found : S → Option I → Option I → E

/-- Recovery strategy NestedDelimiters of recovery.rs: the primary open
and close delimiters (tuple fields 0 and 1), the other delimiter pairs
(field 2) and the default output factory (field 3). -/
structure NestedDelimiters (I O : Type) where
  odelim : I
  cdelim : I
  others : List (I × I)
  default : Unit → O

/-- Inner for-loop of NestedDelimiters::recover over the other delimiter
pairs, threading each pair's balance alongside the open-positions stack
and the recorded diagnostic: an other-pair open increments its balance, an
other-pair close decrements it, and a close that drives its balance
negative while the primary balance is exactly 1 records — only while no
diagnostic is recorded yet — an unclosed-delimiter diagnostic built from
the popped most recent primary open position; the unwrap of that pop on an
empty stack is modelled as the none outcome. -/
def othersScan {I S E : Type} [DecidableEq I] (eops : ErrorOps I S E)
    (o c : I) (t : I) (pos : Nat) (span : S) (balance : Int) :
    List ((I × I) × Int) → List S → Option (Located E) →
    Option (List ((I × I) × Int) × List S × Option (Located E))
  | [], starts, error => some ([], starts, error)
  | ((po, pc), bo) :: rest, starts, error =>
    if t = po then
      match othersScan eops o c t pos span balance rest starts error with
      | none => none
      | some (rest', starts', error') =>
        some (((po, pc), bo + 1) :: rest', starts', error')
    else if t = pc then
      if bo - 1 < 0 ∧ balance = 1 then
        match error with
        | some e =>
          match othersScan eops o c t pos span balance rest starts (some e) with
          | none => none
          | some (rest', starts', error') =>
            some (((po, pc), bo - 1) :: rest', starts', error')
        | none =>
          match starts with
          | [] => none
          | start :: starts2 =>
            match othersScan eops o c t pos span balance rest starts2
              (some (Located.mk pos
                (eops.unclosed_delimiter start o span c (some t)))) with
            | none => none
            | some (rest', starts', error') =>
              some (((po, pc), bo - 1) :: rest', starts', error')
      else
        match othersScan eops o c t pos span balance rest starts error with
        | none => none
        | some (rest', starts', error') =>
          some (((po, pc), bo - 1) :: rest', starts', error')
    else
      match othersScan eops o c t pos span balance rest starts error with
      | none => none
      | some (rest', starts', error') =>
        some (((po, pc), bo) :: rest', starts', error')

/-- Scan loop of NestedDelimiters::recover from recovery.rs: per consumed
token, the primary open pushes its span and increments the balance, the
primary close pops the stack and decrements, any other token runs the
other-pairs scan; after a delimiter event the loop stops with success when
the balance reaches 0 and with failure when it goes negative, a
non-delimiter token at balance 0 stops with failure, and end of input at
primary balance exactly 1 records (when none is recorded yet) an unclosed
or expected-close diagnostic and stops with failure. The result is the
recovered flag, the recorded diagnostic, and the remaining tokens with the
final position; none propagates the unwrap of the other-pairs scan. -/
def ndLoop {I S E : Type} [DecidableEq I] (eops : ErrorOps I S E)
    (o c : I) (eofSpan : S) :
    List (I × S) → Nat → Int → List ((I × I) × Int) → List S →
    Option (Located E) →
    Option (Bool × Option (Located E) × List (I × S) × Nat)
  | [], pos, balance, _obs, starts, error =>
    if 0 < balance ∧ balance = 1 then
      match error with
      | some e => some (false, some e, [], pos)
      | none =>
        match starts with
        | start :: _ =>
          some (false, some (Located.mk pos
            (eops.unclosed_delimiter start o eofSpan c none)), [], pos)
        | [] =>
          some (false, some (Located.mk pos
            (eops.expected_input_found eofSpan (some c) none)), [], pos)
    else some (false, error, [], pos)
  | (t, span) :: rest, pos, balance, obs, starts, error =>
    if t = o then
      if balance + 1 = 0 then some (true, error, rest, pos + 1)
      else if balance + 1 < 0 then some (false, error, rest, pos + 1)
      else ndLoop eops o c eofSpan rest (pos + 1) (balance + 1) obs
        (span :: starts) error
    else if t = c then
      if balance - 1 = 0 then some (true, error, rest, pos + 1)
      else if balance - 1 < 0 then some (false, error, rest, pos + 1)
      else ndLoop eops o c eofSpan rest (pos + 1) (balance - 1) obs
        starts.tail error
    else
      match othersScan eops o c t pos span balance obs starts error with
      | none => none
      | some (obs', starts', error') =>
        if balance = 0 then some (false, error', rest, pos + 1)
        else ndLoop eops o c eofSpan rest (pos + 1) balance obs' starts' error'

/-- Strategy::recover for NestedDelimiters from recovery.rs: the assert
that the two primary delimiters differ is modelled as the none outcome;
otherwise the scan loop runs from balance 0 with every other-pair balance
0, an empty stack and no recorded diagnostic; afterwards the recorded
diagnostic (if any) is appended to the recovered list; on success the
original fatal diagnostic is then appended exactly when the list is empty
or the fatal position lies strictly before its last element's, and the
output is the default factory's value with no alternative diagnostic; on
failure the original fatal diagnostic is propagated unchanged. -/
def NestedDelimiters.recover {I S O E : Type} [DecidableEq I]
    (eops : ErrorOps I S E) (nd : NestedDelimiters I O)
    (a_errors : List (Located E)) (a_err : Located E)
    (stream : TokenStream I S) : Option (PResult O E × TokenStream I S) :=
  if nd.odelim = nd.cdelim then none
  else
    match ndLoop eops nd.odelim nd.cdelim stream.eofSpan stream.tokens
      stream.at_ 0 (nd.others.map (fun pr => (pr, 0))) [] none with
    | none => none
    | some (recovered, error, rest, pos) =>
      let a_errors1 := match error with
        | some e => a_errors ++ [e]
        | none => a_errors
      let stream' : TokenStream I S := ⟨pos, rest, stream.eofSpan⟩
      if recovered then
        let keep := match a_errors1.getLast? with
          | none => true
          | some e => decide (a_err.at_ < e.at_)
        if keep then
          some ((a_errors1 ++ [a_err], Except.ok (nd.default (), none)),
            stream')
        else
          some ((a_errors1, Except.ok (nd.default (), none)), stream')
      else
        some ((a_errors1, Except.error a_err), stream')

/-- Concrete error operations over natural tokens, spans and errors used
by witnesses: each constructor encodes its arguments numerically so that
distinct diagnostics stay distinguishable. -/
def eopsNat : ErrorOps Nat Nat Nat where
  unclosed_delimiter := fun start _ span _ found =>
    1000 + start * 100 + span * 10 +
      (match found with | none => 0 | some t => t)
  expected_input_found := fun span _ _ => 2000 + span

/-- Concrete NestedDelimiters configuration used by witnesses: primary
delimiters 1 and 2, one other pair (3, 4), default output 42. -/
def ndTest : NestedDelimiters Nat Nat :=
  ⟨1, 2, [(3, 4)], fun _ => 42⟩

-- Everything below this point is theorems; definitions are added above.

/-- Auxiliary fact about parse_recovery: an empty final diagnostic list
forces the inner outcome to be a success, hence an output is present. -/
theorem parse_recovery_empty_implies_out {I S O E : Type} (p : Parser I S O E)
    (stream : TokenStream I S) (h : (p.parse_recovery stream).2 = []) :
    ∃ out, (p.parse_recovery stream).1 = some out := by
  cases hres : (p.parse_inner stream).1.2 with
  | error err =>
    exfalso
    simp only [Parser.parse_recovery] at h
    rw [hres] at h
    simp at h
  | ok v =>
    obtain ⟨out, alt⟩ := v
    refine ⟨out, ?_⟩
    simp only [Parser.parse_recovery]
    rw [hres]

/-- C1: Located::max returns the argument at the strictly greater position
unchanged; at equal positions it returns the common position with the
merged error, and is commutative whenever the underlying merge is. -/
theorem located_max_spec {E : Type} (merge : E → E → E) (a b : Located E) :
    (b.at_ < a.at_ → Located.max merge a (some b) = a) ∧
    (a.at_ < b.at_ → Located.max merge a (some b) = b) ∧
    (a.at_ = b.at_ →
      Located.max merge a (some b) = Located.mk a.at_ (merge a.error b.error)) ∧
    (a.at_ = b.at_ → (∀ x y, merge x y = merge y x) →
      Located.max merge a (some b) = Located.max merge b (some a)) := by
  refine ⟨?_, ?_, ?_, ?_⟩
  · intro h
    simp only [Located.max]
    rw [Nat.compare_eq_gt.mpr h]
  · intro h
    simp only [Located.max]
    rw [Nat.compare_eq_lt.mpr h]
  · intro h
    simp only [Located.max]
    rw [Nat.compare_eq_eq.mpr h]
  · intro h hcomm
    simp only [Located.max]
    rw [Nat.compare_eq_eq.mpr h, Nat.compare_eq_eq.mpr h.symm]
    simp [h, hcomm a.error b.error]

/-- C1 witness: the three regimes of Located::max exercised on concrete
diagnostics at positions 2 and 5 over natural-number errors. -/
theorem located_max_spec_witness :
    Located.max Nat.max (Located.mk 5 10) (some (Located.mk 2 20)) = Located.mk 5 10 ∧
    Located.max Nat.max (Located.mk 2 20) (some (Located.mk 5 10)) = Located.mk 5 10 ∧
    Located.max Nat.max (Located.mk 5 10) (some (Located.mk 5 20)) = Located.mk 5 20 ∧
    Located.max Nat.max (Located.mk 5 10) (some (Located.mk 5 20)) =
      Located.max Nat.max (Located.mk 5 20) (some (Located.mk 5 10)) :=
  ⟨(located_max_spec Nat.max (Located.mk 5 10) (Located.mk 2 20)).1 (by decide),
   (located_max_spec Nat.max (Located.mk 2 20) (Located.mk 5 10)).2.1 (by decide),
   (located_max_spec Nat.max (Located.mk 5 10) (Located.mk 5 20)).2.2.1 rfl,
   (located_max_spec Nat.max (Located.mk 5 10) (Located.mk 5 20)).2.2.2 rfl
     (fun x y => Nat.max_comm x y)⟩

/-- C2: Parser::parse calls parse_recovery and returns the output as
success when the diagnostic list is empty, returns the diagnostic list as
the failure outcome (discarding any partial output) when diagnostics
exist, and the contract-violation branch (no output with no diagnostics,
modelled as the none result) is never reached. -/
theorem parse_spec {I S O E : Type} (p : Parser I S O E)
    (stream : TokenStream I S) :
    ((p.parse_recovery stream).2 = [] →
      ∃ out, (p.parse_recovery stream).1 = some out ∧
        p.parse stream = some (Except.ok out)) ∧
    ((p.parse_recovery stream).2 ≠ [] →
      p.parse stream = some (Except.error (p.parse_recovery stream).2)) ∧
    p.parse stream ≠ none := by
  refine ⟨?_, ?_, ?_⟩
  · intro h
    obtain ⟨out, hout⟩ := parse_recovery_empty_implies_out p stream h
    refine ⟨out, hout, ?_⟩
    simp [Parser.parse, h, hout]
  · intro h
    simp [Parser.parse, h]
  · intro hnone
    by_cases h : (p.parse_recovery stream).2 = []
    · obtain ⟨out, hout⟩ := parse_recovery_empty_implies_out p stream h
      simp [Parser.parse, h, hout] at hnone
    · simp [Parser.parse, h] at hnone

/-- C2 witness: parse evaluated on a succeeding parser (empty diagnostics,
output returned) and on a fatally failing parser (diagnostic list
returned), both over the empty stream. -/
theorem parse_spec_witness :
    (∃ out, (pOkNoErr.parse_recovery (TokenStream.mk 0 [] 0)).1 = some out ∧
      pOkNoErr.parse (TokenStream.mk 0 [] 0) = some (Except.ok out)) ∧
    pFailNoErr.parse (TokenStream.mk 0 [] 0) = some (Except.error [7]) ∧
    pOkNoErr.parse (TokenStream.mk 0 [] 0) ≠ none :=
  ⟨(parse_spec pOkNoErr (TokenStream.mk 0 [] 0)).1 rfl,
   (parse_spec pFailNoErr (TokenStream.mk 0 [] 0)).2.1 (by decide),
   (parse_spec pOkNoErr (TokenStream.mk 0 [] 0)).2.2⟩

/-- C3: Parser::parse_recovery is total by construction; on an inner
success it reports the output together with exactly the recovered
diagnostics, and on an inner fatal failure it appends the fatal diagnostic
as the last element of the diagnostic list and reports no output. -/
theorem parse_recovery_spec {I S O E : Type} (p : Parser I S O E)
    (stream : TokenStream I S) (out : O) (alt : Option (Located E))
    (err : Located E) :
    ((p.parse_inner stream).1.2 = Except.ok (out, alt) →
      p.parse_recovery stream =
        (some out, (p.parse_inner stream).1.1.map Located.error)) ∧
    ((p.parse_inner stream).1.2 = Except.error err →
      p.parse_recovery stream =
        (none, ((p.parse_inner stream).1.1 ++ [err]).map Located.error)) := by
  constructor
  · intro h
    simp only [Parser.parse_recovery]
    rw [h]
  · intro h
    simp only [Parser.parse_recovery]
    rw [h]

/-- C3 witness: parse_recovery evaluated on the succeeding parser (output
present, diagnostics exactly the recovered list) and on the fatally
failing parser (no output, fatal diagnostic appended last). -/
theorem parse_recovery_spec_witness :
    pOkNoErr.parse_recovery (TokenStream.mk 0 [] 0) = (some 0, []) ∧
    pFailNoErr.parse_recovery (TokenStream.mk 0 [] 0) = (none, [7]) :=
  ⟨(parse_recovery_spec pOkNoErr (TokenStream.mk 0 [] 0) 0 none
      (Located.mk 3 7)).1 rfl,
   (parse_recovery_spec pFailNoErr (TokenStream.mk 0 [] 0) 0 none
      (Located.mk 3 7)).2 rfl⟩

/-- Auxiliary termination fact for SkipThenRetryUntil: when the failed
parser never grows the stream, the fuelled loop returns a value whenever
the fuel exceeds the number of remaining tokens, because each failed retry
consumes at least the one skipped token. -/
theorem skip_retry_recoverAux_total {I S O E : Type} [DecidableEq I]
    (sentinels : List I) (p : Parser I S O E)
    (hmono : ∀ s, ((p.parse_inner s).2).tokens.length ≤ s.tokens.length)
    (a_errors : List (Located E)) (a_err : Located E) :
    ∀ fuel stream, stream.tokens.length < fuel →
      (SkipThenRetryUntil.recoverAux sentinels p a_errors a_err fuel
        stream).isSome := by
  intro fuel
  induction fuel with
  | zero => intro stream h; omega
  | succ n ih =>
    intro stream h
    obtain ⟨sat, stoks, seof⟩ := stream
    cases stoks with
    | nil => simp [SkipThenRetryUntil.recoverAux, TokenStream.next]
    | cons hd rest =>
      obtain ⟨t, span⟩ := hd
      rw [SkipThenRetryUntil.recoverAux.eq_2]
      by_cases hc : t ∈ sentinels
      · simp [TokenStream.next, hc]
      · simp only [TokenStream.next]
        rw [if_neg (by simpa using hc)]
        cases hres : (p.parse_inner ⟨sat + 1, rest, seof⟩).1.2 with
        | ok out => simp [hres]
        | error e =>
          simp only [hres]
          apply ih
          have hm := hmono ⟨sat + 1, rest, seof⟩
          simp only [List.length_cons] at h hm ⊢
          omega

/-- C5: SkipThenRetryUntil::recover terminates on every finite stream
whenever the wrapped parser cannot grow the stream: run with fuel equal to
one more than the number of remaining tokens, the loop always completes,
since each failed retry strictly advances past the skipped token and the
sentinel or end-of-input check bounds the loop. -/
theorem skip_retry_terminates {I S O E : Type} [DecidableEq I]
    (st : SkipThenRetryUntil I) (p : Parser I S O E)
    (a_errors : List (Located E)) (a_err : Located E)
    (stream : TokenStream I S)
    (hmono : ∀ s, ((p.parse_inner s).2).tokens.length ≤ s.tokens.length) :
    (st.recover p a_errors a_err stream).isSome :=
  skip_retry_recoverAux_total st.sentinels p hmono a_errors a_err
    (stream.tokens.length + 1) stream (Nat.lt_succ_self _)

/-- C5 witness: termination evaluated for the strategy with sentinel 5 and
a parser that consumes everything and fails, over a two-token stream. -/
theorem skip_retry_terminates_witness :
    (SkipThenRetryUntil.recover ⟨[5]⟩ pConsumeAllFail [] (Located.mk 1 1)
      (TokenStream.mk 0 [(7, 0), (8, 1)] 9)).isSome :=
  skip_retry_terminates ⟨[5]⟩ pConsumeAllFail [] (Located.mk 1 1)
    (TokenStream.mk 0 [(7, 0), (8, 1)] 9) (fun s => Nat.zero_le _)

/-- C4 counterexample: with no sentinels, prior recovered diagnostic list
R equal to the singleton of the diagnostic at position 0, fatal diagnostic
at position 1, and a wrapped parser that succeeds on retry with no
recovered diagnostics of its own, the strategy succeeds after one skip but
the returned recovered list is exactly the fatal diagnostic alone: the
diagnostics R received as already recovered are not contained in it,
contradicting the claim. -/
theorem skip_retry_prior_diags_cex :
    SkipThenRetryUntil.recover ⟨[]⟩ pOkNoErr [Located.mk 0 0]
        (Located.mk 1 1) (TokenStream.mk 0 [(7, 0)] 9) =
      some (([Located.mk 1 1], Except.ok (0, none)), TokenStream.mk 1 [] 9) ∧
    Located.mk 0 0 ∉ [Located.mk 1 1] := by
  constructor
  · rfl
  · decide

/-- C4 amended: SkipThenRetryUntil::recover runs the fuelled loop at fuel
one more than the remaining token count, and at every iteration — any
fuel, any current stream — the loop gives up with failure carrying the
previously recovered diagnostics and the fatal diagnostic when input is
exhausted or the next token is a sentinel, returns a successful retry with
that retry's own recovered diagnostics and the fatal diagnostic appended,
and after a failed retry continues as the loop on the failed retry's
stream with one unit less fuel; consequently every value the loop returns
is either that give-up failure or a success whose recovered list is some
retry's own recovered diagnostics with the fatal diagnostic appended —
the diagnostics received as already recovered are discarded on every
success path, however many tokens were skipped. -/
theorem skip_retry_amended {I S O E : Type} [DecidableEq I]
    (st : SkipThenRetryUntil I) (p : Parser I S O E)
    (a_errors : List (Located E)) (a_err : Located E) :
    (∀ stream : TokenStream I S,
      st.recover p a_errors a_err stream =
        SkipThenRetryUntil.recoverAux st.sentinels p a_errors a_err
          (stream.tokens.length + 1) stream) ∧
    (∀ (fuel : Nat) (stream : TokenStream I S), stream.tokens = [] →
      SkipThenRetryUntil.recoverAux st.sentinels p a_errors a_err
        (fuel + 1) stream = some ((a_errors, Except.error a_err), stream)) ∧
    (∀ (fuel : Nat) (stream : TokenStream I S) (t : I) (span : S)
      (rest : List (I × S)), stream.tokens = (t, span) :: rest →
      t ∈ st.sentinels →
      SkipThenRetryUntil.recoverAux st.sentinels p a_errors a_err
        (fuel + 1) stream = some ((a_errors, Except.error a_err), stream)) ∧
    (∀ (fuel : Nat) (stream : TokenStream I S) (t : I) (span : S)
      (rest : List (I × S)) (errs : List (Located E))
      (out : O × Option (Located E)) (s2 : TokenStream I S),
      stream.tokens = (t, span) :: rest → t ∉ st.sentinels →
      p.parse_inner ⟨stream.at_ + 1, rest, stream.eofSpan⟩ =
        ((errs, Except.ok out), s2) →
      SkipThenRetryUntil.recoverAux st.sentinels p a_errors a_err
        (fuel + 1) stream = some ((errs ++ [a_err], Except.ok out), s2)) ∧
    (∀ (fuel : Nat) (stream : TokenStream I S) (t : I) (span : S)
      (rest : List (I × S)) (errs : List (Located E)) (e : Located E)
      (s2 : TokenStream I S),
      stream.tokens = (t, span) :: rest → t ∉ st.sentinels →
      p.parse_inner ⟨stream.at_ + 1, rest, stream.eofSpan⟩ =
        ((errs, Except.error e), s2) →
      SkipThenRetryUntil.recoverAux st.sentinels p a_errors a_err
        (fuel + 1) stream =
        SkipThenRetryUntil.recoverAux st.sentinels p a_errors a_err
          fuel s2) ∧
    (∀ (fuel : Nat) (stream : TokenStream I S) (errors : List (Located E))
      (res : Except (Located E) (O × Option (Located E)))
      (s2 : TokenStream I S),
      SkipThenRetryUntil.recoverAux st.sentinels p a_errors a_err fuel
        stream = some ((errors, res), s2) →
      (errors = a_errors ∧ res = Except.error a_err) ∨
      (∃ errs out s_mid, res = Except.ok out ∧ errors = errs ++ [a_err] ∧
        p.parse_inner s_mid = ((errs, Except.ok out), s2))) := by
  refine ⟨?_, ?_, ?_, ?_, ?_, ?_⟩
  · intro stream
    rfl
  · intro fuel stream h
    rw [SkipThenRetryUntil.recoverAux.eq_2]
    simp [TokenStream.next, h]
  · intro fuel stream t span rest h hc
    rw [SkipThenRetryUntil.recoverAux.eq_2]
    simp [TokenStream.next, h, hc]
  · intro fuel stream t span rest errs out s2 h hc hp
    rw [SkipThenRetryUntil.recoverAux.eq_2]
    simp only [TokenStream.next, h]
    rw [hp]
    simp [hc]
  · intro fuel stream t span rest errs e s2 h hc hp
    rw [SkipThenRetryUntil.recoverAux.eq_2]
    simp only [TokenStream.next, h]
    rw [hp]
    simp [hc]
  · intro fuel
    induction fuel with
    | zero =>
      intro stream errors res s2 h
      simp [SkipThenRetryUntil.recoverAux] at h
    | succ n ih =>
      intro stream errors res s2 h
      obtain ⟨sat, stoks, seof⟩ := stream
      cases stoks with
      | nil =>
        rw [SkipThenRetryUntil.recoverAux.eq_2] at h
        simp only [TokenStream.next, Option.some.injEq, Prod.mk.injEq] at h
        injection h.1 with h1 h2
        exact Or.inl ⟨h1.symm, h2.symm⟩
      | cons hd rest =>
        obtain ⟨t, span⟩ := hd
        rw [SkipThenRetryUntil.recoverAux.eq_2] at h
        simp only [TokenStream.next] at h
        by_cases hc : t ∈ st.sentinels
        · rw [if_pos (by simpa using hc)] at h
          simp only [Option.some.injEq, Prod.mk.injEq] at h
          injection h.1 with h1 h2
          exact Or.inl ⟨h1.symm, h2.symm⟩
        · rw [if_neg (by simpa using hc)] at h
          cases hres : (p.parse_inner ⟨sat + 1, rest, seof⟩).1.2 with
          | ok out2 =>
            rw [hres] at h
            simp only [Option.some.injEq, Prod.mk.injEq] at h
            injection h.1 with h1 h2
            right
            refine ⟨(p.parse_inner ⟨sat + 1, rest, seof⟩).1.1, out2,
              ⟨sat + 1, rest, seof⟩, h2.symm, h1.symm, ?_⟩
            rw [← h.2, ← hres]
            rfl
          | error e2 =>
            rw [hres] at h
            exact ih ((p.parse_inner ⟨sat + 1, rest, seof⟩).2) errors res s2 h

/-- C4 witness for the amended claim, on a parser that fails its first
retry and succeeds on its second: recover equals the fuelled loop; the
loop gives up at end of input and on a sentinel at an intermediate state;
a failed retry steps to the loop on the advanced stream; the second retry
succeeds after two skips with only its own (empty) recovered diagnostics
plus the fatal; and the whole-loop characterization applied to that
two-skip run yields the success disjunct. -/
theorem skip_retry_amended_witness :
    SkipThenRetryUntil.recover ⟨[]⟩ pSucceedLate [Located.mk 0 0]
        (Located.mk 1 1) ⟨0, [(7, 0), (8, 1), (9, 2)], 9⟩ =
      SkipThenRetryUntil.recoverAux [] pSucceedLate [Located.mk 0 0]
        (Located.mk 1 1) 4 ⟨0, [(7, 0), (8, 1), (9, 2)], 9⟩ ∧
    SkipThenRetryUntil.recoverAux [] pSucceedLate [Located.mk 0 0]
        (Located.mk 1 1) 5 ⟨3, [], 9⟩ =
      some (([Located.mk 0 0], Except.error (Located.mk 1 1)),
        ⟨3, [], 9⟩) ∧
    SkipThenRetryUntil.recoverAux [8] pSucceedLate [Located.mk 0 0]
        (Located.mk 1 1) 4 ⟨1, [(8, 1), (9, 2)], 9⟩ =
      some (([Located.mk 0 0], Except.error (Located.mk 1 1)),
        ⟨1, [(8, 1), (9, 2)], 9⟩) ∧
    SkipThenRetryUntil.recoverAux [] pSucceedLate [Located.mk 0 0]
        (Located.mk 1 1) 3 ⟨1, [(8, 1), (9, 2)], 9⟩ =
      some (([Located.mk 1 1], Except.ok (2, none)), ⟨2, [(9, 2)], 9⟩) ∧
    SkipThenRetryUntil.recoverAux [] pSucceedLate [Located.mk 0 0]
        (Located.mk 1 1) 4 ⟨0, [(7, 0), (8, 1), (9, 2)], 9⟩ =
      SkipThenRetryUntil.recoverAux [] pSucceedLate [Located.mk 0 0]
        (Located.mk 1 1) 3 ⟨1, [(8, 1), (9, 2)], 9⟩ ∧
    (([Located.mk 1 1] = [Located.mk 0 0] ∧
        (Except.ok (2, none) :
          Except (Located Nat) (Nat × Option (Located Nat))) =
          Except.error (Located.mk 1 1)) ∨
      ∃ errs out s_mid,
        (Except.ok (2, none) :
          Except (Located Nat) (Nat × Option (Located Nat))) =
          Except.ok out ∧
        ([Located.mk 1 1] : List (Located Nat)) =
          errs ++ [Located.mk 1 1] ∧
        pSucceedLate.parse_inner s_mid =
          ((errs, Except.ok out), ⟨2, [(9, 2)], 9⟩)) :=
  ⟨(skip_retry_amended ⟨[]⟩ pSucceedLate [Located.mk 0 0]
      (Located.mk 1 1)).1 ⟨0, [(7, 0), (8, 1), (9, 2)], 9⟩,
   (skip_retry_amended ⟨[]⟩ pSucceedLate [Located.mk 0 0]
      (Located.mk 1 1)).2.1 4 ⟨3, [], 9⟩ rfl,
   (skip_retry_amended ⟨[8]⟩ pSucceedLate [Located.mk 0 0]
      (Located.mk 1 1)).2.2.1 3 ⟨1, [(8, 1), (9, 2)], 9⟩ 8 1 [(9, 2)]
      rfl (by decide),
   (skip_retry_amended ⟨[]⟩ pSucceedLate [Located.mk 0 0]
      (Located.mk 1 1)).2.2.2.1 2 ⟨1, [(8, 1), (9, 2)], 9⟩ 8 1 [(9, 2)]
      [] (2, none) ⟨2, [(9, 2)], 9⟩ rfl (by decide) rfl,
   (skip_retry_amended ⟨[]⟩ pSucceedLate [Located.mk 0 0]
      (Located.mk 1 1)).2.2.2.2.1 3 ⟨0, [(7, 0), (8, 1), (9, 2)], 9⟩ 7 0
      [(8, 1), (9, 2)] [] (Located.mk 1 7) ⟨1, [(8, 1), (9, 2)], 9⟩
      rfl (by decide) rfl,
   (skip_retry_amended ⟨[]⟩ pSucceedLate [Located.mk 0 0]
      (Located.mk 1 1)).2.2.2.2.2 4 ⟨0, [(7, 0), (8, 1), (9, 2)], 9⟩
      [Located.mk 1 1] (Except.ok (2, none)) ⟨2, [(9, 2)], 9⟩ rfl⟩

/-- Auxiliary fact about the other-pairs scan: when the primary balance is
not 1 the foreign-unmatched-close branch is dead, so the scan only updates
the other balances and returns the stack and recorded diagnostic
unchanged. -/
theorem othersScan_balance_ne_one {I S E : Type} [DecidableEq I]
    (eops : ErrorOps I S E) (o c t : I) (pos : Nat) (span : S)
    (balance : Int) (hb : balance ≠ 1) :
    ∀ (obs : List ((I × I) × Int)) (starts : List S)
      (error : Option (Located E)), ∃ obs',
      othersScan eops o c t pos span balance obs starts error =
        some (obs', starts, error) := by
  intro obs
  induction obs with
  | nil => intro starts error; exact ⟨[], rfl⟩
  | cons hd rest ih =>
    obtain ⟨⟨po, pc⟩, bo⟩ := hd
    intro starts error
    obtain ⟨obs', hobs⟩ := ih starts error
    by_cases h1 : t = po
    · refine ⟨((po, pc), bo + 1) :: obs', ?_⟩
      simp only [othersScan]
      rw [if_pos h1, hobs]
    · by_cases h2 : t = pc
      · have hcond : ¬(bo - 1 < 0 ∧ balance = 1) := fun hh => hb hh.2
        refine ⟨((po, pc), bo - 1) :: obs', ?_⟩
        simp only [othersScan]
        rw [if_neg h1, if_pos h2, if_neg hcond, hobs]
      · refine ⟨((po, pc), bo) :: obs', ?_⟩
        simp only [othersScan]
        rw [if_neg h1, if_neg h2, hobs]

/-- Auxiliary totality fact about the other-pairs scan: when a recorded
diagnostic being absent and the primary balance being 1 together imply a
non-empty open-positions stack, the scan never hits the unwrap, and when
its result records no diagnostic the stack and the absence of a recorded
diagnostic were preserved untouched. -/
theorem othersScan_some {I S E : Type} [DecidableEq I]
    (eops : ErrorOps I S E) (o c t : I) (pos : Nat) (span : S)
    (balance : Int) :
    ∀ (obs : List ((I × I) × Int)) (starts : List S)
      (error : Option (Located E)),
      (error = none → balance = 1 → starts ≠ []) →
      ∃ r, othersScan eops o c t pos span balance obs starts error = some r ∧
        (r.2.2 = none → error = none ∧ r.2.1 = starts) := by
  intro obs
  induction obs with
  | nil =>
    intro starts error hpre
    exact ⟨([], starts, error), rfl, fun h => ⟨h, rfl⟩⟩
  | cons hd rest ih =>
    obtain ⟨⟨po, pc⟩, bo⟩ := hd
    intro starts error hpre
    by_cases h1 : t = po
    · obtain ⟨r, hr, hp⟩ := ih starts error hpre
      obtain ⟨r1, r2, r3⟩ := r
      refine ⟨(((po, pc), bo + 1) :: r1, r2, r3), ?_, hp⟩
      simp only [othersScan]
      rw [if_pos h1, hr]
    · by_cases h2 : t = pc
      · by_cases hcond : bo - 1 < 0 ∧ balance = 1
        · cases herr : error with
          | some e =>
            obtain ⟨r, hr, hp⟩ := ih starts (some e)
              (fun h => absurd h (by simp))
            obtain ⟨r1, r2, r3⟩ := r
            refine ⟨(((po, pc), bo - 1) :: r1, r2, r3), ?_, ?_⟩
            · simp only [othersScan]
              rw [if_neg h1, if_pos h2, if_pos hcond, hr]
            · intro hnone
              obtain ⟨habs, _⟩ := hp hnone
              exact absurd habs (by simp)
          | none =>
            have hne : starts ≠ [] := hpre herr hcond.2
            cases starts with
            | nil => exact absurd rfl hne
            | cons start starts2 =>
              obtain ⟨r, hr, hp⟩ := ih starts2
                (some (Located.mk pos
                  (eops.unclosed_delimiter start o span c (some t))))
                (fun h => absurd h (by simp))
              obtain ⟨r1, r2, r3⟩ := r
              refine ⟨(((po, pc), bo - 1) :: r1, r2, r3), ?_, ?_⟩
              · simp only [othersScan]
                rw [if_neg h1, if_pos h2, if_pos hcond, hr]
              · intro hnone
                obtain ⟨habs, _⟩ := hp hnone
                exact absurd habs (by simp)
        · obtain ⟨r, hr, hp⟩ := ih starts error hpre
          obtain ⟨r1, r2, r3⟩ := r
          refine ⟨(((po, pc), bo - 1) :: r1, r2, r3), ?_, hp⟩
          simp only [othersScan]
          rw [if_neg h1, if_pos h2, if_neg hcond, hr]
      · obtain ⟨r, hr, hp⟩ := ih starts error hpre
        obtain ⟨r1, r2, r3⟩ := r
        refine ⟨(((po, pc), bo) :: r1, r2, r3), ?_, hp⟩
        simp only [othersScan]
        rw [if_neg h1, if_neg h2, hr]

/-- Auxiliary totality fact for the scan loop: under the stack invariant
that the absence of a recorded diagnostic implies the open-positions stack
length equals the primary balance, the loop always returns a value. -/
theorem ndLoop_some {I S E : Type} [DecidableEq I] (eops : ErrorOps I S E)
    (o c : I) (eofSpan : S) :
    ∀ (tokens : List (I × S)) (pos : Nat) (balance : Int)
      (obs : List ((I × I) × Int)) (starts : List S)
      (error : Option (Located E)),
      (error = none → (starts.length : Int) = balance) →
      (ndLoop eops o c eofSpan tokens pos balance obs starts error).isSome := by
  intro tokens
  induction tokens with
  | nil =>
    intro pos balance obs starts error hinv
    simp only [ndLoop]
    split
    · cases error with
      | some e => simp
      | none =>
        cases starts with
        | nil => simp
        | cons s ss => simp
    · simp
  | cons hd rest ih =>
    obtain ⟨t, span⟩ := hd
    intro pos balance obs starts error hinv
    simp only [ndLoop]
    by_cases h1 : t = o
    · rw [if_pos h1]
      by_cases hz : balance + 1 = 0
      · rw [if_pos hz]; simp
      · rw [if_neg hz]
        by_cases hneg : balance + 1 < 0
        · rw [if_pos hneg]; simp
        · rw [if_neg hneg]
          apply ih
          intro he
          have hlen := hinv he
          simp only [List.length_cons]
          push_cast
          omega
    · rw [if_neg h1]
      by_cases h2 : t = c
      · rw [if_pos h2]
        by_cases hz : balance - 1 = 0
        · rw [if_pos hz]; simp
        · rw [if_neg hz]
          by_cases hneg : balance - 1 < 0
          · rw [if_pos hneg]; simp
          · rw [if_neg hneg]
            apply ih
            intro he
            have hlen := hinv he
            cases starts with
            | nil =>
              exfalso
              simp at hlen
              omega
            | cons s ss =>
              simp only [List.tail_cons]
              simp only [List.length_cons] at hlen
              push_cast at hlen ⊢
              omega
      · rw [if_neg h2]
        have hpre : error = none → balance = 1 → starts ≠ [] := by
          intro he hb hnil
          have hlen := hinv he
          rw [hnil] at hlen
          simp at hlen
          omega
        obtain ⟨r, hr, hp⟩ :=
          othersScan_some eops o c t pos span balance obs starts error hpre
        obtain ⟨r1, r2, r3⟩ := r
        rw [hr]
        dsimp only
        by_cases hz : balance = 0
        · rw [if_pos hz]; simp
        · rw [if_neg hz]
          apply ih
          intro he3
          obtain ⟨he, hst⟩ := hp he3
          rw [show r2 = starts from hst]
          exact hinv he

/-- C6: stopping rules of the NestedDelimiters scan loop — after a
delimiter event (a consumed primary open or close) the loop stops with
success when the primary balance reaches 0 and with failure when it goes
negative, and a consumed token that is not a delimiter event while the
balance is still 0 stops the loop with failure immediately. -/
theorem nd_stopping_spec {I S E : Type} [DecidableEq I]
    (eops : ErrorOps I S E) (o c : I) (eofSpan : S) (t : I) (span : S)
    (rest : List (I × S)) (pos : Nat) (balance : Int)
    (obs : List ((I × I) × Int)) (starts : List S)
    (error : Option (Located E)) (hoc : o ≠ c) :
    (t = o → balance + 1 = 0 →
      ndLoop eops o c eofSpan ((t, span) :: rest) pos balance obs starts
        error = some (true, error, rest, pos + 1)) ∧
    (t = o → balance + 1 < 0 →
      ndLoop eops o c eofSpan ((t, span) :: rest) pos balance obs starts
        error = some (false, error, rest, pos + 1)) ∧
    (t = c → balance - 1 = 0 →
      ndLoop eops o c eofSpan ((t, span) :: rest) pos balance obs starts
        error = some (true, error, rest, pos + 1)) ∧
    (t = c → balance - 1 < 0 →
      ndLoop eops o c eofSpan ((t, span) :: rest) pos balance obs starts
        error = some (false, error, rest, pos + 1)) ∧
    (t ≠ o → t ≠ c → balance = 0 →
      ndLoop eops o c eofSpan ((t, span) :: rest) pos balance obs starts
        error = some (false, error, rest, pos + 1)) := by
  refine ⟨?_, ?_, ?_, ?_, ?_⟩
  · intro h1 hz
    simp only [ndLoop]
    rw [if_pos h1, if_pos hz]
  · intro h1 hneg
    have hz : ¬(balance + 1 = 0) := by omega
    simp only [ndLoop]
    rw [if_pos h1, if_neg hz, if_pos hneg]
  · intro h2 hz
    have h1 : t ≠ o := by
      rw [h2]
      exact fun hco => hoc hco.symm
    simp only [ndLoop]
    rw [if_neg h1, if_pos h2, if_pos hz]
  · intro h2 hneg
    have h1 : t ≠ o := by
      rw [h2]
      exact fun hco => hoc hco.symm
    have hz : ¬(balance - 1 = 0) := by omega
    simp only [ndLoop]
    rw [if_neg h1, if_pos h2, if_neg hz, if_pos hneg]
  · intro h1 h2 hz
    obtain ⟨obs', hobs⟩ := othersScan_balance_ne_one eops o c t pos span
      balance (by omega) obs starts error
    simp only [ndLoop]
    rw [if_neg h1, if_neg h2, hobs]
    dsimp only
    rw [if_pos hz]

/-- C6 witness: the five stopping rules evaluated on concrete one-token
inputs with primary delimiters 1 and 2. -/
theorem nd_stopping_spec_witness :
    ndLoop eopsNat 1 2 9 [(1, 0)] 0 (-1) [] [] none =
      some (true, none, [], 1) ∧
    ndLoop eopsNat 1 2 9 [(1, 0)] 0 (-2) [] [] none =
      some (false, none, [], 1) ∧
    ndLoop eopsNat 1 2 9 [(2, 0)] 0 1 [] [] none =
      some (true, none, [], 1) ∧
    ndLoop eopsNat 1 2 9 [(2, 0)] 0 0 [] [] none =
      some (false, none, [], 1) ∧
    ndLoop eopsNat 1 2 9 [(5, 0)] 0 0 [] [] none =
      some (false, none, [], 1) :=
  ⟨(nd_stopping_spec eopsNat 1 2 9 1 0 [] 0 (-1) [] [] none
      (by decide)).1 rfl (by decide),
   (nd_stopping_spec eopsNat 1 2 9 1 0 [] 0 (-2) [] [] none
      (by decide)).2.1 rfl (by decide),
   (nd_stopping_spec eopsNat 1 2 9 2 0 [] 0 1 [] [] none
      (by decide)).2.2.1 rfl (by decide),
   (nd_stopping_spec eopsNat 1 2 9 2 0 [] 0 0 [] [] none
      (by decide)).2.2.2.1 rfl (by decide),
   (nd_stopping_spec eopsNat 1 2 9 5 0 [] 0 0 [] [] none
      (by decide)).2.2.2.2 (by decide) (by decide) rfl⟩

/-- C7: end of input at primary balance exactly 1 records exactly one
diagnostic when none is recorded yet — built from the pending open
position when the stack is non-empty and an expected-close-found-end
diagnostic otherwise — and the loop stops with failure; end of input at
balance 0 or at balance at least 2 leaves the recorded diagnostic
unchanged; and on loop failure recover appends the recorded diagnostic to
the recovered list and propagates the original fatal diagnostic unchanged
as the failure. -/
theorem nd_eof_spec {I S O E : Type} [DecidableEq I] (eops : ErrorOps I S E)
    (o c : I) (eofSpan : S) (pos : Nat) (balance : Int)
    (obs : List ((I × I) × Int)) (starts : List S)
    (error : Option (Located E)) (start : S) (starts2 : List S)
    (nd : NestedDelimiters I O) (a_errors : List (Located E))
    (a_err : Located E) (stream : TokenStream I S)
    (err2 : Option (Located E)) (rest : List (I × S)) (pos2 : Nat) :
    (starts = start :: starts2 →
      ndLoop eops o c eofSpan [] pos 1 obs starts none =
        some (false, some (Located.mk pos
          (eops.unclosed_delimiter start o eofSpan c none)), [], pos)) ∧
    (ndLoop eops o c eofSpan [] pos 1 obs ([] : List S) none =
      some (false, some (Located.mk pos
        (eops.expected_input_found eofSpan (some c) none)), [], pos)) ∧
    (balance = 0 ∨ 2 ≤ balance →
      ndLoop eops o c eofSpan [] pos balance obs starts error =
        some (false, error, [], pos)) ∧
    (nd.odelim ≠ nd.cdelim →
      ndLoop eops nd.odelim nd.cdelim stream.eofSpan stream.tokens
        stream.at_ 0 (nd.others.map (fun pr => (pr, 0))) [] none =
        some (false, err2, rest, pos2) →
      NestedDelimiters.recover eops nd a_errors a_err stream =
        some ((a_errors ++ err2.toList, Except.error a_err),
          ⟨pos2, rest, stream.eofSpan⟩)) := by
  refine ⟨?_, ?_, ?_, ?_⟩
  · intro hs
    subst hs
    simp [ndLoop]
  · simp [ndLoop]
  · intro hb
    have hcond : ¬(0 < balance ∧ balance = 1) := by
      rcases hb with h | h <;> omega
    simp only [ndLoop]
    rw [if_neg hcond]
  · intro hoc hloop
    simp only [NestedDelimiters.recover]
    rw [if_neg hoc, hloop]
    cases err2 with
    | none => simp
    | some e => simp

/-- C7 witness: the four branches evaluated concretely — end of input at
balance 1 with pending open position 0, the same with an empty stack, end
of input at balance 0, and recover on the single-open-token stream
propagating the fatal diagnostic unchanged after the unclosed-delimiter
diagnostic. -/
theorem nd_eof_spec_witness :
    ndLoop eopsNat 1 2 9 [] 5 1 [] [0] none =
      some (false, some (Located.mk 5 1090), [], 5) ∧
    ndLoop eopsNat 1 2 9 [] 5 1 [] [] none =
      some (false, some (Located.mk 5 2009), [], 5) ∧
    ndLoop eopsNat 1 2 9 [] 5 0 [] [0] none = some (false, none, [], 5) ∧
    NestedDelimiters.recover eopsNat ndTest [] (Located.mk 0 5)
        ⟨0, [(1, 0)], 9⟩ =
      some (([Located.mk 1 1090], Except.error (Located.mk 0 5)),
        ⟨1, [], 9⟩) :=
  let h := nd_eof_spec eopsNat 1 2 9 5 0 [] [0] none 0 [] ndTest []
    (Located.mk 0 5) ⟨0, [(1, 0)], 9⟩ (some (Located.mk 1 1090)) [] 1
  ⟨h.1 rfl, h.2.1, h.2.2.1 (Or.inl rfl), h.2.2.2 (by decide) rfl⟩

/-- C8: when the NestedDelimiters scan succeeds, recover returns success
whose output is the default factory's value with no alternative
diagnostic; the recorded foreign-delimiter diagnostic (if any) is appended
to the recovered list, and the original fatal diagnostic is then appended
exactly when that list is empty or the fatal position lies strictly before
the last recorded diagnostic's position. -/
theorem nd_success_spec {I S O E : Type} [DecidableEq I]
    (eops : ErrorOps I S E) (nd : NestedDelimiters I O)
    (a_errors : List (Located E)) (a_err : Located E)
    (stream : TokenStream I S) (errOpt : Option (Located E))
    (rest : List (I × S)) (pos : Nat)
    (hoc : nd.odelim ≠ nd.cdelim)
    (hloop : ndLoop eops nd.odelim nd.cdelim stream.eofSpan stream.tokens
      stream.at_ 0 (nd.others.map (fun pr => (pr, 0))) [] none =
      some (true, errOpt, rest, pos)) :
    (((a_errors ++ errOpt.toList).getLast? = none ∨
        (∃ e, (a_errors ++ errOpt.toList).getLast? = some e ∧
          a_err.at_ < e.at_)) →
      NestedDelimiters.recover eops nd a_errors a_err stream =
        some (((a_errors ++ errOpt.toList) ++ [a_err],
          Except.ok (nd.default (), none)), ⟨pos, rest, stream.eofSpan⟩)) ∧
    ((∃ e, (a_errors ++ errOpt.toList).getLast? = some e ∧
        ¬ a_err.at_ < e.at_) →
      NestedDelimiters.recover eops nd a_errors a_err stream =
        some ((a_errors ++ errOpt.toList,
          Except.ok (nd.default (), none)), ⟨pos, rest, stream.eofSpan⟩)) := by
  constructor
  · intro hk
    simp only [NestedDelimiters.recover]
    rw [if_neg hoc, hloop]
    cases errOpt with
    | none =>
      simp only [Option.toList, List.append_nil] at hk ⊢
      rcases hk with hnone | ⟨e, hlast, hlt⟩
      · simp [hnone]
      · simp [hlast, hlt]
    | some d =>
      simp only [Option.toList] at hk ⊢
      rcases hk with hnone | ⟨e, hlast, hlt⟩
      · simp [hnone]
      · simp [hlast, hlt]
  · intro hk
    simp only [NestedDelimiters.recover]
    rw [if_neg hoc, hloop]
    cases errOpt with
    | none =>
      simp only [Option.toList, List.append_nil] at hk ⊢
      obtain ⟨e, hlast, hlt⟩ := hk
      simp [hlast, hlt]
    | some d =>
      simp only [Option.toList] at hk ⊢
      obtain ⟨e, hlast, hlt⟩ := hk
      simp [hlast, hlt]

/-- C8 witness: recovery over the stream open, foreign close, close — the
foreign-delimiter diagnostic at position 1 is appended, the fatal at
position 0 is appended because it lies strictly earlier, while a fatal at
position 3 is not; the output is the default value 42 with no
alternative. -/
theorem nd_success_spec_witness :
    NestedDelimiters.recover eopsNat ndTest [] (Located.mk 0 5)
        ⟨0, [(1, 0), (4, 1), (2, 2)], 9⟩ =
      some (([Located.mk 1 1014, Located.mk 0 5],
        Except.ok (42, none)), ⟨3, [], 9⟩) ∧
    NestedDelimiters.recover eopsNat ndTest [] (Located.mk 3 5)
        ⟨0, [(1, 0), (4, 1), (2, 2)], 9⟩ =
      some (([Located.mk 1 1014],
        Except.ok (42, none)), ⟨3, [], 9⟩) :=
  ⟨(nd_success_spec eopsNat ndTest [] (Located.mk 0 5)
      ⟨0, [(1, 0), (4, 1), (2, 2)], 9⟩ (some (Located.mk 1 1014)) [] 3
      (by decide) rfl).1
      (Or.inr ⟨Located.mk 1 1014, rfl, by decide⟩),
   (nd_success_spec eopsNat ndTest [] (Located.mk 3 5)
      ⟨0, [(1, 0), (4, 1), (2, 2)], 9⟩ (some (Located.mk 1 1014)) [] 3
      (by decide) rfl).2
      ⟨Located.mk 1 1014, rfl, by decide⟩⟩

/-- Auxiliary totality fact for recover: with distinct primary delimiters
the assert passes and the scan loop starts in a state satisfying the stack
invariant, so recover always returns a value. -/
theorem nd_recover_isSome_of_ne {I S O E : Type} [DecidableEq I]
    (eops : ErrorOps I S E) (nd : NestedDelimiters I O)
    (a_errors : List (Located E)) (a_err : Located E)
    (stream : TokenStream I S) (h : nd.odelim ≠ nd.cdelim) :
    (NestedDelimiters.recover eops nd a_errors a_err stream).isSome := by
  have htot := ndLoop_some eops nd.odelim nd.cdelim stream.eofSpan
    stream.tokens stream.at_ 0 (nd.others.map (fun pr => (pr, 0))) [] none
    (fun _ => rfl)
  simp only [NestedDelimiters.recover]
  rw [if_neg h]
  obtain ⟨r, hr⟩ := Option.isSome_iff_exists.mp htot
  obtain ⟨recovered, err2, rest, pos⟩ := r
  rw [hr]
  cases recovered <;> cases err2 <;> simp [apply_ite]

/-- C9: invoking NestedDelimiters::recover with identical open and close
delimiters trips the assert (modelled as the none outcome), and under the
precondition that they differ the assert never fires and recovery returns
a value on every input. -/
theorem nd_assert_spec {I S O E : Type} [DecidableEq I]
    (eops : ErrorOps I S E) (nd : NestedDelimiters I O)
    (a_errors : List (Located E)) (a_err : Located E)
    (stream : TokenStream I S) :
    (nd.odelim = nd.cdelim →
      NestedDelimiters.recover eops nd a_errors a_err stream = none) ∧
    (nd.odelim ≠ nd.cdelim →
      (NestedDelimiters.recover eops nd a_errors a_err stream).isSome) := by
  constructor
  · intro h
    simp [NestedDelimiters.recover, h]
  · intro h
    exact nd_recover_isSome_of_ne eops nd a_errors a_err stream h

/-- C9 witness: the assert outcome with identical delimiters 1 and 1, and
totality over a concrete balanced stream with distinct delimiters. -/
theorem nd_assert_spec_witness :
    NestedDelimiters.recover eopsNat ⟨1, 1, [], fun _ => 42⟩ []
      (Located.mk 0 5) ⟨0, [], 9⟩ = none ∧
    (NestedDelimiters.recover eopsNat ndTest [] (Located.mk 0 5)
      ⟨0, [(1, 0), (2, 1)], 9⟩).isSome :=
  ⟨(nd_assert_spec eopsNat ⟨1, 1, [], fun _ => 42⟩ [] (Located.mk 0 5)
      ⟨0, [], 9⟩).1 rfl,
   (nd_assert_spec eopsNat ndTest [] (Located.mk 0 5)
      ⟨0, [(1, 0), (2, 1)], 9⟩).2 (by decide)⟩

/-- C10: the scan-loop invariant — whenever no foreign-delimiter
diagnostic has been recorded the open-positions stack length equals the
primary balance, so in particular at balance 1 the stack is non-empty and
the pop-unwrap in the foreign-unmatched-close branch cannot fire — makes
the loop total, and with distinct primary delimiters recover is total on
every finite input stream. -/
theorem nd_no_panic_total {I S O E : Type} [DecidableEq I]
    (eops : ErrorOps I S E) (o c : I) (eofSpan : S)
    (tokens : List (I × S)) (pos : Nat) (balance : Int)
    (obs : List ((I × I) × Int)) (starts : List S)
    (error : Option (Located E)) (nd : NestedDelimiters I O)
    (a_errors : List (Located E)) (a_err : Located E)
    (stream : TokenStream I S) :
    ((error = none → (starts.length : Int) = balance) →
      (ndLoop eops o c eofSpan tokens pos balance obs starts
        error).isSome) ∧
    (nd.odelim ≠ nd.cdelim →
      (NestedDelimiters.recover eops nd a_errors a_err stream).isSome) := by
  constructor
  · exact ndLoop_some eops o c eofSpan tokens pos balance obs starts error
  · exact nd_recover_isSome_of_ne eops nd a_errors a_err stream

/-- C10 witness: the loop evaluated at balance 1 with a one-element stack
on a foreign-close token (the branch guarded by the invariant), and
recover evaluated on the stream open then foreign close. -/
theorem nd_no_panic_total_witness :
    (ndLoop eopsNat 1 2 9 [(4, 0)] 0 1 [((3, 4), 0)] [0] none).isSome ∧
    (NestedDelimiters.recover eopsNat ndTest [] (Located.mk 0 5)
      ⟨0, [(1, 0), (4, 1)], 9⟩).isSome :=
  ⟨(nd_no_panic_total eopsNat 1 2 9 [(4, 0)] 0 1 [((3, 4), 0)] [0] none
      ndTest [] (Located.mk 0 5) ⟨0, [(1, 0), (4, 1)], 9⟩).1
      (fun _ => rfl),
   (nd_no_panic_total eopsNat 1 2 9 [(4, 0)] 0 1 [((3, 4), 0)] [0] none
      ndTest [] (Located.mk 0 5) ⟨0, [(1, 0), (4, 1)], 9⟩).2
      (by decide)⟩
